import Mathlib

/-!
Verification development for the token payload core of sfn-callback-urls.

The repository issues stateless callback tokens: a JSON payload is built by
a PayloadBuilder, validated against a closed schema, serialized to a
versioned wire string (`"1-<base64>"` for plaintext, `"2-<base64>"` for
envelope-encrypted bodies) and decoded back under a confidentiality policy.

This file gives a shallow embedding of that core: a JSON value type, a
compact serializer and its parser, byte-level UTF-8 and base64 codecs, the
wire codec `encode_payload`/`decode_payload`, the schema validators, the
expiration guard and the payload builder, followed by theorems settling the
specification claims (round-trip, downgrade/upgrade rejection, expiration
boundary, schema closure and the parameters policy).

The repository's `payload.py`, `common.py` and `create_urls.py` are not
part of the sources provided (only their tests, the action schema and the
exception hierarchy are); definitions taken from those files are modelled
from the specification, and are marked as such in their doc comments,
constrained by the behaviour the in-repo tests pin down.
-/

namespace SfnCallbackUrls

/-- A JSON value: the payloads, action descriptors and batch requests of the
system are all values of this type. -/
inductive Json where
  | null
  | bool (b : Bool)
  | num (n : Int)
  | str (s : String)
  | arr (elems : List Json)
  | obj (fields : List (String × Json))

/-- First value bound to key `k`, mirroring a Python dict lookup on a decoded
JSON object (objects produced by parsing have unique keys). -/
def lookupField (fields : List (String × Json)) (k : String) : Option Json :=
  match fields with
  | [] => none
  | (k1, v) :: rest => if k1 = k then some v else lookupField rest k

/-! ### Serialization: compact JSON text (model of `json.dumps`) -/

/-- Decimal digit character for `n < 10`. -/
def digitChar (n : Nat) : Char := Char.ofNat (48 + n)

/-- Lowercase hexadecimal digit character for `n < 16`. -/
def hexChar (n : Nat) : Char :=
  if n < 10 then Char.ofNat (48 + n) else Char.ofNat (87 + n)

/-- Decimal digits of `n`, most significant first; `fuel` bounds recursion so
that the definition is structural and reduces inside the kernel. -/
def natCharsAux : Nat → Nat → List Char
  | 0, _ => []
  | f + 1, n =>
    if n < 10 then [digitChar n]
    else natCharsAux f (n / 10) ++ [digitChar (n % 10)]

/-- Decimal digits of a natural number (fuel `n + 1` always suffices). -/
def natChars (n : Nat) : List Char := natCharsAux (n + 1) n

/-- Decimal text of an integer: optional minus sign, then digits. -/
def intChars (i : Int) : List Char :=
  if i < 0 then '-' :: natChars i.natAbs else natChars i.natAbs

/-- JSON escape of one character: quote and backslash are escaped, control
characters become a `\u00XX` escape, anything else stands for itself. -/
def escapeOne (c : Char) : List Char :=
  if c = '"' then ['\\', '"']
  else if c = '\\' then ['\\', '\\']
  else if c.toNat < 32 then
    ['\\', 'u', '0', '0', hexChar (c.toNat / 16), hexChar (c.toNat % 16)]
  else [c]

/-- JSON escape of a character sequence. -/
def escapeList : List Char → List Char
  | [] => []
  | c :: rest => escapeOne c ++ escapeList rest

/-- A JSON string literal: quotes around the escaped content. -/
def strChars (s : String) : List Char := '"' :: (escapeList s.data ++ ['"'])

mutual
/-- Compact JSON text of a value (no whitespace, like
`json.dumps(.., separators=(',', ':'))`). -/
def dumpJson : Json → List Char
  | .null => "null".data
  | .bool true => "true".data
  | .bool false => "false".data
  | .num i => intChars i
  | .str s => strChars s
  | .arr es => '[' :: (dumpItems es ++ [']'])
  | .obj fs => '{' :: (dumpEntries fs ++ ['}'])
/-- Comma-separated array elements (no brackets). -/
def dumpItems : List Json → List Char
  | [] => []
  | [e] => dumpJson e
  | e :: rest => dumpJson e ++ ',' :: dumpItems rest
/-- Comma-separated `"key":value` object entries (no braces). -/
def dumpEntries : List (String × Json) → List Char
  | [] => []
  | [(k, v)] => strChars k ++ ':' :: dumpJson v
  | (k, v) :: rest => strChars k ++ ':' :: dumpJson v ++ ',' :: dumpEntries rest
end

/-! ### Parsing the compact JSON text -/

/-- Is `c` a decimal digit? -/
def isDigitC (c : Char) : Bool := 48 ≤ c.toNat && c.toNat ≤ 57

/-- Value of a decimal digit character. -/
def digitVal (c : Char) : Nat := c.toNat - 48

/-- Value of a lowercase hexadecimal digit character, if it is one. -/
def hexVal (c : Char) : Option Nat :=
  if 48 ≤ c.toNat && c.toNat ≤ 57 then some (c.toNat - 48)
  else if 97 ≤ c.toNat && c.toNat ≤ 102 then some (c.toNat - 87)
  else none

/-- Split a leading run of decimal digit characters from the rest. -/
def grabDigits : List Char → List Char × List Char
  | [] => ([], [])
  | c :: rest =>
    if isDigitC c then
      let p := grabDigits rest
      (c :: p.1, p.2)
    else ([], c :: rest)

/-- Does the input not continue a digit run? -/
def digitBoundary : List Char → Bool
  | [] => true
  | c :: _ => !isDigitC c

/-- Numeric value of a digit run, most significant first. -/
def digitsVal (ds : List Char) : Nat :=
  ds.foldl (fun a c => a * 10 + digitVal c) 0

/-- Parse a nonempty digit run into its value. -/
def parseDigits (cs : List Char) : Option (Nat × List Char) :=
  match grabDigits cs with
  | ([], _) => none
  | (ds, r) => some (digitsVal ds, r)

/-- Prepend a character to the content component of a string-body parse. -/
def consBody (c : Char) : Option (List Char × List Char) → Option (List Char × List Char)
  | some (cs, r) => some (c :: cs, r)
  | none => none

/-- Parse the body of a JSON string literal after its opening quote,
undoing the `escapeOne` escapes; returns the content and the remainder
after the closing quote. -/
def parseStrBody : List Char → Option (List Char × List Char)
  | [] => none
  | c :: rest =>
    if c = '"' then some ([], rest)
    else if c = '\\' then
      match rest with
      | [] => none
      | e :: rest2 =>
        if e = '"' then consBody '"' (parseStrBody rest2)
        else if e = '\\' then consBody '\\' (parseStrBody rest2)
        else if e = 'u' then
          match rest2 with
          | '0' :: '0' :: h1 :: h2 :: rest3 =>
            match hexVal h1, hexVal h2 with
            | some v1, some v2 => consBody (Char.ofNat (16 * v1 + v2)) (parseStrBody rest3)
            | _, _ => none
          | _ => none
        else none
    else if c.toNat < 32 then none
    else consBody c (parseStrBody rest)

mutual
/-- Parse one JSON value from the compact text; `fuel` bounds the nesting
recursion, the input length plus one always suffices. -/
def parseJ : Nat → List Char → Option (Json × List Char)
  | 0, _ => none
  | f + 1, cs =>
    match cs with
    | [] => none
    | c :: r =>
      if c = 'n' then
        match r with
        | 'u' :: 'l' :: 'l' :: r1 => some (.null, r1)
        | _ => none
      else if c = 't' then
        match r with
        | 'r' :: 'u' :: 'e' :: r1 => some (.bool true, r1)
        | _ => none
      else if c = 'f' then
        match r with
        | 'a' :: 'l' :: 's' :: 'e' :: r1 => some (.bool false, r1)
        | _ => none
      else if c = '"' then
        match parseStrBody r with
        | some (body, r1) => some (.str (String.mk body), r1)
        | none => none
      else if c = '[' then
        match r with
        | [] => none
        | c2 :: r2 =>
          if c2 = ']' then some (.arr [], r2)
          else
            match parseItems f (c2 :: r2) with
            | some (es, r1) => some (.arr es, r1)
            | none => none
      else if c = '{' then
        match r with
        | [] => none
        | c2 :: r2 =>
          if c2 = '}' then some (.obj [], r2)
          else
            match parseEntries f (c2 :: r2) with
            | some (fs, r1) => some (.obj fs, r1)
            | none => none
      else if c = '-' then
        match parseDigits r with
        | some (n, r1) => some (.num (-(n : Int)), r1)
        | none => none
      else if isDigitC c then
        match parseDigits (c :: r) with
        | some (n, r1) => some (.num (n : Int), r1)
        | none => none
      else none
/-- Parse one-or-more comma-separated array elements and the closing
bracket; the empty array is handled in `parseJ`. -/
def parseItems : Nat → List Char → Option (List Json × List Char)
  | 0, _ => none
  | f + 1, cs =>
    match parseJ f cs with
    | none => none
    | some (e, r) =>
      match r with
      | [] => none
      | c2 :: r2 =>
        if c2 = ',' then
          match parseItems f r2 with
          | some (es, r3) => some (e :: es, r3)
          | none => none
        else if c2 = ']' then some ([e], r2)
        else none
/-- Parse one-or-more comma-separated object entries and the closing
brace; the empty object is handled in `parseJ`. -/
def parseEntries : Nat → List Char → Option (List (String × Json) × List Char)
  | 0, _ => none
  | f + 1, cs =>
    match cs with
    | '"' :: r =>
      match parseStrBody r with
      | none => none
      | some (kcs, r1) =>
        match r1 with
        | ':' :: r2 =>
          match parseJ f r2 with
          | none => none
          | some (v, r3) =>
            match r3 with
            | [] => none
            | c4 :: r4 =>
              if c4 = ',' then
                match parseEntries f r4 with
                | some (fs, r5) => some ((String.mk kcs, v) :: fs, r5)
                | none => none
              else if c4 = '}' then some ([(String.mk kcs, v)], r4)
              else none
        | _ => none
    | _ => none
end

/-- Parse a complete JSON document: one value consuming the whole input. -/
def parseJson (cs : List Char) : Option Json :=
  match parseJ (cs.length + 1) cs with
  | some (j, []) => some j
  | _ => none

/-! ### UTF-8 (bytes are naturals below 256) -/

/-- UTF-8 encoding of one character (1 to 4 bytes). -/
def utf8Char (c : Char) : List Nat :=
  let n := c.toNat
  if n < 128 then [n]
  else if n < 2048 then [192 + n / 64, 128 + n % 64]
  else if n < 65536 then [224 + n / 4096, 128 + n / 64 % 64, 128 + n % 64]
  else [240 + n / 262144, 128 + n / 4096 % 64, 128 + n / 64 % 64, 128 + n % 64]

/-- UTF-8 encoding of a character sequence. -/
def utf8Encode : List Char → List Nat
  | [] => []
  | c :: rest => utf8Char c ++ utf8Encode rest

/-- Is `b` a UTF-8 continuation byte? -/
def isCont (b : Nat) : Bool := 128 ≤ b && b < 192

/-- Is `n` a Unicode scalar value (a valid `Char` code point)? -/
def isScalar (n : Nat) : Bool := n < 55296 || (57343 < n && n < 1114112)

/-- Decode one UTF-8 sequence into its code point, rejecting stray
continuation bytes, truncated sequences, overlong forms and non-scalar
values. -/
def utf8DecodeOne : List Nat → Option (Nat × List Nat)
  | [] => none
  | b :: rest =>
    if b < 128 then some (b, rest)
    else if b < 192 then none
    else if b < 224 then
      match rest with
      | b1 :: r =>
        if isCont b1 then
          let n := (b - 192) * 64 + (b1 - 128)
          if 128 ≤ n then some (n, r) else none
        else none
      | [] => none
    else if b < 240 then
      match rest with
      | b1 :: b2 :: r =>
        if isCont b1 && isCont b2 then
          let n := (b - 224) * 4096 + (b1 - 128) * 64 + (b2 - 128)
          if 2048 ≤ n && isScalar n then some (n, r) else none
        else none
      | _ => none
    else if b < 248 then
      match rest with
      | b1 :: b2 :: b3 :: r =>
        if isCont b1 && isCont b2 && isCont b3 then
          let n := (b - 240) * 262144 + (b1 - 128) * 4096 + (b2 - 128) * 64 + (b3 - 128)
          if 65536 ≤ n && n < 1114112 then some (n, r) else none
        else none
      | _ => none
    else none

/-- Decode a UTF-8 byte sequence into characters; `fuel` bounds the
recursion, the byte count always suffices. -/
def utf8DecodeAux : Nat → List Nat → Option (List Char)
  | _, [] => some []
  | 0, _ :: _ => none
  | f + 1, b :: bs =>
    match utf8DecodeOne (b :: bs) with
    | none => none
    | some (n, r) =>
      match utf8DecodeAux f r with
      | some cs => some (Char.ofNat n :: cs)
      | none => none

/-- Decode a UTF-8 byte sequence into characters. -/
def utf8Decode (bs : List Nat) : Option (List Char) := utf8DecodeAux bs.length bs

/-! ### Base64 (standard alphabet, `=` padding) -/

/-- Character of the standard base64 alphabet for a six-bit value. -/
def b64Char (n : Nat) : Char :=
  if n < 26 then Char.ofNat (65 + n)
  else if n < 52 then Char.ofNat (71 + n)
  else if n < 62 then Char.ofNat (n - 4)
  else if n = 62 then '+'
  else '/'

/-- Six-bit value of a standard base64 alphabet character, if it is one. -/
def b64Val (c : Char) : Option Nat :=
  if 65 ≤ c.toNat && c.toNat ≤ 90 then some (c.toNat - 65)
  else if 97 ≤ c.toNat && c.toNat ≤ 122 then some (c.toNat - 71)
  else if 48 ≤ c.toNat && c.toNat ≤ 57 then some (c.toNat + 4)
  else if c = '+' then some 62
  else if c = '/' then some 63
  else none

/-- Base64 text of a byte sequence: three bytes to four characters, with
`=` padding for a trailing one- or two-byte group. -/
def b64Encode : List Nat → List Char
  | [] => []
  | [a] => [b64Char (a / 4), b64Char (a % 4 * 16), '=', '=']
  | [a, b] => [b64Char (a / 4), b64Char (a % 4 * 16 + b / 16), b64Char (b % 16 * 4), '=']
  | a :: b :: c :: rest =>
    b64Char (a / 4) :: b64Char (a % 4 * 16 + b / 16) :: b64Char (b % 16 * 4 + c / 64) ::
      b64Char (c % 64) :: b64Encode rest

/-- Bytes of a base64 text, rejecting bad characters, bad lengths and
noncanonical padding. -/
def b64Decode : List Char → Option (List Nat)
  | [] => some []
  | c1 :: c2 :: c3 :: c4 :: rest =>
    match b64Val c1, b64Val c2 with
    | some n1, some n2 =>
      if c3 = '=' then
        if c4 = '=' && rest.isEmpty && n2 % 16 = 0 then some [n1 * 4 + n2 / 16]
        else none
      else
        match b64Val c3 with
        | some n3 =>
          if c4 = '=' then
            if rest.isEmpty && n3 % 4 = 0 then
              some [n1 * 4 + n2 / 16, n2 % 16 * 16 + n3 / 4]
            else none
          else
            match b64Val c4 with
            | some n4 =>
              match b64Decode rest with
              | some bs =>
                some ((n1 * 4 + n2 / 16) :: (n2 % 16 * 16 + n3 / 4) :: (n3 % 4 * 64 + n4) :: bs)
              | none => none
            | none => none
        | none => none
    | _, _ => none
  | _ => none

/-! ### Errors and the envelope codec -/

/-- The error kinds of the core (the `RequestError` family of
`exceptions.py` restricted to the errors the core raises). -/
inductive PayloadError where
  | invalidPayload
  | expiredPayload
  | parametersDisabled
  | encryptionError
  | decryptionUnsupported
  | encryptionRequired
deriving DecidableEq, Repr

/-- The external envelope-encryption capability: `encrypt` produces an
opaque byte blob, `decrypt` is fallible (tampered ciphertext or missing key
material yields `none`). -/
structure EncryptionProvider where
  encrypt : List Nat → List Nat
  decrypt : List Nat → Option (List Nat)

/-- UTF-8 bytes of the compact JSON serialization of a value. -/
def jsonToBytes (j : Json) : List Nat := utf8Encode (dumpJson j)

/-- Parse a payload back out of serialized bytes. -/
def bytesToJson (bs : List Nat) : Option Json :=
  match utf8Decode bs with
  | none => none
  | some cs => parseJson cs

/-- Modelled from the spec: `encode_payload` of the missing `payload.py`.
Serializes the payload to JSON/UTF-8 and produces the versioned wire string:
version `"1"` (plain base64 body) when no encryption provider is supplied,
version `"2"` (base64 of the provider's ciphertext blob) when one is. -/
def encode_payload (payload : Json) (provider : Option EncryptionProvider) : String :=
  match provider with
  | none => String.mk ('1' :: '-' :: b64Encode (jsonToBytes payload))
  | some g => String.mk ('2' :: '-' :: b64Encode (g.encrypt (jsonToBytes payload)))

/-- Modelled from the spec: `decode_payload` of the missing `payload.py`.
Splits the wire string into version tag and base64 body and enforces the
confidentiality policy: a version-1 body with a provider configured fails
with `EncryptionRequiredError`; a version-2 body without a provider fails
with `DecryptionUnsupportedError`; a provider decryption failure surfaces
as an encryption error; any malformed version tag, base64, UTF-8 or JSON
fails with `InvalidPayloadError`. -/
def decode_payload (s : String) (provider : Option EncryptionProvider) :
    Except PayloadError Json :=
  match s.data with
  | '1' :: '-' :: body =>
    match provider with
    | some _ => .error .encryptionRequired
    | none =>
      match b64Decode body with
      | none => .error .invalidPayload
      | some bytes =>
        match bytesToJson bytes with
        | some j => .ok j
        | none => .error .invalidPayload
  | '2' :: '-' :: body =>
    match provider with
    | none => .error .decryptionUnsupported
    | some g =>
      match b64Decode body with
      | none => .error .invalidPayload
      | some blob =>
        match g.decrypt blob with
        | none => .error .encryptionError
        | some bytes =>
          match bytesToJson bytes with
          | some j => .ok j
          | none => .error .invalidPayload
  | _ => .error .invalidPayload

/-! ### Schema validators -/

/-- Does field `k`, if present, hold a string? -/
def strIfPresent (fields : List (String × Json)) (k : String) : Bool :=
  match lookupField fields k with
  | none => true
  | some (.str _) => true
  | some _ => false

/-- The `response_schema` of `schemas/action.py`: an object whose `json`
field, if present, is an object, and whose `html`, `text` and `redirect`
fields, if present, are strings (the `uri` format annotation is not
enforced, matching `jsonschema.validate` without a format checker). -/
def response_schema (j : Json) : Bool :=
  match j with
  | .obj fields =>
    (match lookupField fields "json" with
     | none => true
     | some (.obj _) => true
     | some _ => false) &&
    strIfPresent fields "html" &&
    strIfPresent fields "text" &&
    strIfPresent fields "redirect"
  | _ => false

/-- The `response` property check of the action-descriptor schema: absent,
or matching `response_schema`. -/
def responseOk (fields : List (String × Json)) : Bool :=
  match lookupField fields "response" with
  | none => true
  | some r => response_schema r

/-- The action-descriptor `schema` of `schemas/action.py`: an object with a
required `type` drawn from `success`/`failure`/`heartbeat` and an optional
`response`, conjoined (`allOf`) with two conditionals: when `type` is
`success` an `output` field (of any shape) is required, and when `type` is
`failure` the `error` and `cause` fields, if present, must be strings.
Other fields are unconstrained (`additionalProperties` is not restricted),
and each conditional is vacuous when its `if` does not match, exactly as
the JSON Schema evaluates. -/
def action_schema (j : Json) : Bool :=
  match j with
  | .obj fields =>
    (match lookupField fields "type" with
     | some (.str t) => t = "success" || t = "failure" || t = "heartbeat"
     | _ => false) &&
    responseOk fields &&
    (match lookupField fields "type" with
     | none => (lookupField fields "output").isSome
     | some (.str "success") => (lookupField fields "output").isSome
     | some _ => true) &&
    (match lookupField fields "type" with
     | none => strIfPresent fields "error" && strIfPresent fields "cause"
     | some (.str "failure") => strIfPresent fields "error" && strIfPresent fields "cause"
     | some _ => true)
  | _ => false

/-- The top-level payload keys the decoded-payload schema declares: the
field set of the payload data model plus the optional callback `url` the
issuing side stores alongside it. -/
def payloadKeys : List String :=
  ["iss", "iat", "tid", "exp", "token", "name", "act", "data", "par", "url"]

/-- Modelled from the spec: `validate_payload_schema` of the missing
`payload.py`. A closed object (no keys beyond `payloadKeys`, as the
in-repo test rejecting an extra `foo` field and accepting an extra `url`
field pins down) with required string `iss`/`tid`/`token`/`name`, integer
`iat`/`exp`, boolean `par`, an optional string `url`, a required `act`
drawn from the three action types and a required object `data` whose
shape is conditioned on `act`: `success` requires an object `output`
(the test rejects a non-object `output`), `failure` allows only string
`error`/`cause`, `heartbeat` needs nothing further. Any violation is the
single `InvalidPayloadError` kind. -/
def validate_payload_schema (p : Json) : Except PayloadError Unit :=
  match p with
  | .obj fields =>
    let ok :=
      fields.all (fun kv => payloadKeys.contains kv.1) &&
      (match lookupField fields "iss" with | some (.str _) => true | _ => false) &&
      (match lookupField fields "iat" with | some (.num _) => true | _ => false) &&
      (match lookupField fields "tid" with | some (.str _) => true | _ => false) &&
      (match lookupField fields "exp" with | some (.num _) => true | _ => false) &&
      (match lookupField fields "token" with | some (.str _) => true | _ => false) &&
      (match lookupField fields "name" with | some (.str _) => true | _ => false) &&
      (match lookupField fields "par" with | some (.bool _) => true | _ => false) &&
      strIfPresent fields "url" &&
      (match lookupField fields "act", lookupField fields "data" with
       | some (.str "success"), some (.obj d) =>
         (match lookupField d "output" with | some (.obj _) => true | _ => false)
       | some (.str "failure"), some (.obj d) =>
         strIfPresent d "error" && strIfPresent d "cause"
       | some (.str "heartbeat"), some (.obj _) => true
       | _, _ => false)
    if ok then .ok () else .error .invalidPayload
  | _ => .error .invalidPayload

/-- An action name is valid when it is non-empty and does not start with
the reserved `$` sentinel character. -/
def actionNameOk (name : String) : Bool :=
  match name.data with
  | [] => false
  | c :: _ => c != '$'

/-- Required non-empty string field (`token` with `minLength 1`). -/
def nonEmptyStrField (fields : List (String × Json)) (k : String) : Bool :=
  match lookupField fields k with
  | some (.str t) => t != ""
  | _ => false

/-- Required `actions` mapping: a non-empty object whose keys are valid
action names and whose values are action descriptors. -/
def actionsField (fields : List (String × Json)) : Bool :=
  match lookupField fields "actions" with
  | some (.obj acts) =>
    !acts.isEmpty &&
    acts.all (fun kv => actionNameOk kv.1 && action_schema kv.2)
  | _ => false

/-- Optional numeric field (the request `expiration`). -/
def optNumField (fields : List (String × Json)) (k : String) : Bool :=
  match lookupField fields k with
  | none => true
  | some (.num _) => true
  | some _ => false

/-- Optional boolean field (the request `enable_output_parameters`). -/
def optBoolField (fields : List (String × Json)) (k : String) : Bool :=
  match lookupField fields k with
  | none => true
  | some (.bool _) => true
  | some _ => false

/-- Optional string-or-object field (the `api` routing hint). -/
def optApiField (fields : List (String × Json)) (k : String) : Bool :=
  match lookupField fields k with
  | none => true
  | some (.str _) => true
  | some (.obj _) => true
  | some _ => false

/-- Modelled from the spec: the `CREATE_URL_EVENT_SCHEMA` of the missing
`create_urls.py`. A batch-creation request is an object with a required
non-empty string `token` and a required non-empty `actions` mapping whose
keys are non-empty action names not starting with the reserved `$`
sentinel and whose values are action descriptors; `expiration` (numeric),
`enable_output_parameters` (boolean) and `api` (string or object routing
hint) are optional. -/
def create_url_event_schema (j : Json) : Bool :=
  match j with
  | .obj fields =>
    nonEmptyStrField fields "token" &&
    actionsField fields &&
    optNumField fields "expiration" &&
    optBoolField fields "enable_output_parameters" &&
    optApiField fields "api"
  | _ => false

/-! ### Expiration guard and payload builder -/

/-- Modelled from the spec: `validate_payload_expiration` of the missing
`payload.py`. Time instants are rationals (seconds); the guard floors the
current timestamp and fails with `ExpiredPayloadError` exactly when that
integer has reached the payload's `exp` claim (expiry is rejected at the
boundary instant itself). -/
def validate_payload_expiration (p : Json) (now : ℚ) : Except PayloadError Unit :=
  match p with
  | .obj fields =>
    match lookupField fields "exp" with
    | some (.num e) => if e ≤ ⌊now⌋ then .error .expiredPayload else .ok ()
    | _ => .error .invalidPayload
  | _ => .error .invalidPayload

/-- The deployment environment a `build` call consults: the process-wide
parameters-disabled toggle (the `DISABLE_PARAMETERS` environment variable,
read fresh on every call) and the issuing function's name. Modelled as an
explicitly passed capability so that the per-call read is visible. -/
structure BuildEnv where
  disableParameters : Bool
  issuer : String

/-- Modelled from the spec: the `PayloadBuilder` constructor arguments of
the missing `payload.py` — the workflow transaction, the issued-at time,
the opaque task token, an optional expiration and the caller's request for
output-parameter passthrough. -/
structure PayloadBuilder where
  transaction_id : String
  issued_at : ℚ
  token : String
  expiration : Option ℚ := none
  enable_output_parameters : Bool := false

/-- The claim set `build` assembles for one action before validating it:
issuer and timestamps from the environment and builder configuration
(`exp` defaults to `0` when no expiration was configured), plus the
action's name, type and data. -/
def PayloadBuilder.payloadFor (pb : PayloadBuilder) (env : BuildEnv)
    (action_name action_type : String) (action_data : Json) : Json :=
  .obj [
    ("iss", .str env.issuer),
    ("iat", .num ⌊pb.issued_at⌋),
    ("tid", .str pb.transaction_id),
    ("exp", .num (match pb.expiration with | some e => ⌊e⌋ | none => 0)),
    ("token", .str pb.token),
    ("name", .str action_name),
    ("act", .str action_type),
    ("data", action_data),
    ("par", .bool pb.enable_output_parameters)]

/-- Modelled from the spec: `PayloadBuilder.build` of the missing
`payload.py`. Re-reads the environment's parameters-disabled toggle on
every call and fails with `ParametersDisabledError` when output parameters
were requested but are disabled; otherwise assembles the payload and
validates it with `validate_payload_schema` before returning it. -/
def PayloadBuilder.build (pb : PayloadBuilder) (env : BuildEnv)
    (action_name action_type : String) (action_data : Json) :
    Except PayloadError Json :=
  if pb.enable_output_parameters && env.disableParameters then
    .error .parametersDisabled
  else
    let payload := pb.payloadFor env action_name action_type action_data
    match validate_payload_schema payload with
    | .ok _ => .ok payload
    | .error e => .error e

/-! ### Concrete values used by the claim theorems -/

/-- The top-level fields of the valid success payload of `test_payload.py`
(the encryption test's payload, without the extra `url` field). -/
def testPayloadFields : List (String × Json) :=
  [("iss", .str "issuer"),
   ("iat", .num 0),
   ("tid", .str "asdf"),
   ("exp", .num 0),
   ("token", .str "jkljkl"),
   ("name", .str "foo"),
   ("act", .str "success"),
   ("data", .obj [("output", .obj [])]),
   ("par", .bool false)]

/-- The valid success payload of `test_payload.py`. -/
def testPayload : Json := .obj testPayloadFields

/-- The top-level fields of the payload of `test_basic_payload_coding`: the
same claim set plus an extra top-level `url` field outside the data-model
field set of §3. -/
def urlPayloadFields : List (String × Json) :=
  testPayloadFields ++ [("url", .str "https://example.com")]

/-- The payload of `test_basic_payload_coding`, carrying the extra `url`. -/
def urlPayload : Json := .obj urlPayloadFields

/-- A success payload whose `data` object is the parameter: the skeleton of
`test_validate_payload_basic` with `act = "success"` and the given data. -/
def successPayload (d : List (String × Json)) : Json :=
  .obj [
    ("iss", .str "issuer"),
    ("iat", .num 0),
    ("tid", .str "asdf"),
    ("exp", .num 0),
    ("token", .str "jkljkl"),
    ("name", .str "foo"),
    ("act", .str "success"),
    ("data", .obj d),
    ("par", .bool false)]

/-- A provider that inverts its own encryption and keeps blobs byte-valued
(the contract assumed of the external envelope-encryption collaborator). -/
def GoodProvider (g : EncryptionProvider) : Prop :=
  (∀ bs, g.decrypt (g.encrypt bs) = some bs) ∧
  (∀ bs, (∀ b ∈ bs, b < 256) → ∀ b ∈ g.encrypt bs, b < 256)

/-- The identity provider: a trivially correct envelope-encryption stub. -/
def idProvider : EncryptionProvider := ⟨fun bs => bs, fun bs => some bs⟩

/-- A builder requesting output parameters, as `test_build_parameters` does. -/
def cBuilder : PayloadBuilder :=
  ⟨"tid0", 0, "tok0", none, true⟩

/-- The environment with the parameters-disabled toggle set. -/
def cEnvOn : BuildEnv := ⟨true, "issuer"⟩

/-- The environment with the parameters-disabled toggle unset. -/
def cEnvOff : BuildEnv := ⟨false, "issuer"⟩

/-- The action data of the builder tests: a success output object. -/
def cActionData : Json := .obj [("output", .obj [])]

/-! ## Lemmas: decimal digits -/

theorem digitChar_spec (k : Nat) (h : k < 10) :
    isDigitC (digitChar k) = true ∧ digitVal (digitChar k) = k := by
  revert k
  decide

theorem natCharsAux_fuel (f : Nat) : ∀ g n, n < f → n < g →
    natCharsAux f n = natCharsAux g n := by
  induction f with
  | zero => intro g n h _; omega
  | succ f ih =>
    intro g n h1 h2
    match g, h2 with
    | g + 1, _ =>
      simp only [natCharsAux]
      by_cases h10 : n < 10
      · simp [h10]
      · rw [if_neg h10, if_neg h10, ih g (n / 10) (by omega) (by omega)]

theorem natChars_unfold (n : Nat) :
    natChars n = if n < 10 then [digitChar n]
      else natChars (n / 10) ++ [digitChar (n % 10)] := by
  by_cases h10 : n < 10
  · simp [natChars, natCharsAux, h10]
  · rw [if_neg h10]
    show natCharsAux (n + 1) n = _
    rw [natCharsAux, if_neg h10,
      natCharsAux_fuel n (n / 10 + 1) (n / 10) (by omega) (by omega)]
    rfl

theorem natChars_ne_nil (n : Nat) : natChars n ≠ [] := by
  rw [natChars_unfold]
  by_cases h10 : n < 10 <;> simp [h10]

theorem natChars_digits (n : Nat) : ∀ c ∈ natChars n, isDigitC c = true := by
  induction n using Nat.strong_induction_on with
  | _ n ih =>
    rw [natChars_unfold]
    by_cases h10 : n < 10
    · simp only [if_pos h10, List.mem_singleton]
      rintro c rfl
      exact (digitChar_spec n h10).1
    · simp only [if_neg h10, List.mem_append, List.mem_singleton]
      rintro c (hc | rfl)
      · exact ih (n / 10) (by omega) c hc
      · exact (digitChar_spec (n % 10) (by omega)).1

theorem digitsVal_snoc (ds : List Char) (c : Char) :
    digitsVal (ds ++ [c]) = 10 * digitsVal ds + digitVal c := by
  simp [digitsVal, List.foldl_append]
  omega

theorem digitsVal_natChars (n : Nat) : digitsVal (natChars n) = n := by
  induction n using Nat.strong_induction_on with
  | _ n ih =>
    rw [natChars_unfold]
    by_cases h10 : n < 10
    · simp only [if_pos h10]
      show digitsVal ([] ++ [digitChar n]) = n
      rw [digitsVal_snoc, (digitChar_spec n h10).2]
      simp [digitsVal]
    · rw [if_neg h10, digitsVal_snoc, ih (n / 10) (by omega),
        (digitChar_spec (n % 10) (by omega)).2]
      omega

theorem grabDigits_stop (cs : List Char) (h : digitBoundary cs = true) :
    grabDigits cs = ([], cs) := by
  match cs with
  | [] => rfl
  | c :: rest =>
    simp only [digitBoundary, Bool.not_eq_true'] at h
    simp [grabDigits, h]

theorem grabDigits_run (ds : List Char) (hds : ∀ c ∈ ds, isDigitC c = true)
    (rest : List Char) (hrest : digitBoundary rest = true) :
    grabDigits (ds ++ rest) = (ds, rest) := by
  induction ds with
  | nil => simpa using grabDigits_stop rest hrest
  | cons c t ih =>
    have hc : isDigitC c = true := hds c (by simp)
    have ht := ih (fun x hx => hds x (by simp [hx]))
    simp [grabDigits, hc, ht]

theorem parseDigits_natChars (n : Nat) (rest : List Char)
    (hrest : digitBoundary rest = true) :
    parseDigits (natChars n ++ rest) = some (n, rest) := by
  rw [parseDigits, grabDigits_run (natChars n) (natChars_digits n) rest hrest]
  obtain ⟨c, t, hct⟩ : ∃ c t, natChars n = c :: t := by
    cases h : natChars n with
    | nil => exact absurd h (natChars_ne_nil n)
    | cons c t => exact ⟨c, t, rfl⟩
  rw [hct]
  have := digitsVal_natChars n
  rw [hct] at this
  simp [this]

/-! ## Lemmas: string escapes -/

theorem hexVal_hexChar (k : Nat) (h : k < 16) : hexVal (hexChar k) = some k := by
  revert k
  decide

theorem parseStrBody_quote (rest : List Char) :
    parseStrBody ('"' :: rest) = some ([], rest) := by
  rw [parseStrBody.eq_def]
  simp

theorem parseStrBody_escQuote (rest : List Char) :
    parseStrBody ('\\' :: '"' :: rest) = consBody '"' (parseStrBody rest) := by
  rw [parseStrBody.eq_def]
  simp

theorem parseStrBody_escBackslash (rest : List Char) :
    parseStrBody ('\\' :: '\\' :: rest) = consBody '\\' (parseStrBody rest) := by
  rw [parseStrBody.eq_def]
  simp

theorem parseStrBody_escHex (x y : Char) (rest : List Char) :
    parseStrBody ('\\' :: 'u' :: '0' :: '0' :: x :: y :: rest) =
      (match hexVal x, hexVal y with
       | some v1, some v2 => consBody (Char.ofNat (16 * v1 + v2)) (parseStrBody rest)
       | _, _ => none) := by
  rw [parseStrBody.eq_def]
  simp

theorem parseStrBody_plain (c : Char) (rest : List Char) (hq : c ≠ '"')
    (hb : c ≠ '\\') (hctl : ¬c.toNat < 32) :
    parseStrBody (c :: rest) = consBody c (parseStrBody rest) := by
  rw [parseStrBody.eq_def]
  simp [hq, hb, hctl]

theorem parseStrBody_escapeOne (c : Char) (rest : List Char) :
    parseStrBody (escapeOne c ++ rest) = consBody c (parseStrBody rest) := by
  by_cases hq : c = '"'
  · subst hq; simp [escapeOne, parseStrBody_escQuote]
  · by_cases hb : c = '\\'
    · subst hb; simp [escapeOne, parseStrBody_escBackslash]
    · by_cases hctl : c.toNat < 32
      · have h16 : c.toNat / 16 < 16 := by omega
        have h16m : c.toNat % 16 < 16 := by omega
        rw [escapeOne, if_neg hq, if_neg hb, if_pos hctl]
        simp only [List.cons_append, List.nil_append, parseStrBody_escHex,
          hexVal_hexChar _ h16, hexVal_hexChar _ h16m]
        have hc : 16 * (c.toNat / 16) + c.toNat % 16 = c.toNat := by omega
        rw [hc, Char.ofNat_toNat]
      · rw [escapeOne, if_neg hq, if_neg hb, if_neg hctl]
        simpa using parseStrBody_plain c rest hq hb hctl

theorem parseStrBody_escapeList (cs : List Char) : ∀ rest : List Char,
    parseStrBody (escapeList cs ++ '"' :: rest) = some (cs, rest) := by
  induction cs with
  | nil => intro rest; simpa [escapeList] using parseStrBody_quote rest
  | cons c t ih =>
    intro rest
    rw [escapeList, List.append_assoc, parseStrBody_escapeOne, ih]
    rfl

/-! ## Lemmas: UTF-8 -/

theorem char_valid_nat (c : Char) :
    c.toNat < 55296 ∨ (57343 < c.toNat ∧ c.toNat < 1114112) := c.valid

theorem utf8Char_bytes (c : Char) : ∀ b ∈ utf8Char c, b < 256 := by
  have hv := char_valid_nat c
  intro b hb
  simp only [utf8Char] at hb
  by_cases h1 : c.toNat < 128
  · simp [if_pos h1] at hb
    omega
  · by_cases h2 : c.toNat < 2048
    · simp [if_neg h1, if_pos h2] at hb
      rcases hb with rfl | rfl <;> omega
    · by_cases h3 : c.toNat < 65536
      · simp [if_neg h1, if_neg h2, if_pos h3] at hb
        rcases hb with rfl | rfl | rfl <;> omega
      · simp [if_neg h1, if_neg h2, if_neg h3] at hb
        rcases hb with rfl | rfl | rfl | rfl <;> omega

theorem utf8Char_ne_nil (c : Char) : utf8Char c ≠ [] := by
  simp only [utf8Char]
  by_cases h1 : c.toNat < 128
  · simp [if_pos h1]
  · by_cases h2 : c.toNat < 2048
    · simp [if_neg h1, if_pos h2]
    · by_cases h3 : c.toNat < 65536
      · simp [if_neg h1, if_neg h2, if_pos h3]
      · simp [if_neg h1, if_neg h2, if_neg h3]

theorem utf8DecodeOne_char (c : Char) (rest : List Nat) :
    utf8DecodeOne (utf8Char c ++ rest) = some (c.toNat, rest) := by
  have hv := char_valid_nat c
  by_cases h1 : c.toNat < 128
  · rw [show utf8Char c = [c.toNat] from by simp [utf8Char, if_pos h1]]
    rw [utf8DecodeOne.eq_def]
    simp [h1]
  · by_cases h2 : c.toNat < 2048
    · rw [show utf8Char c = [192 + c.toNat / 64, 128 + c.toNat % 64] from by
        simp [utf8Char, if_neg h1, if_pos h2]]
      rw [utf8DecodeOne.eq_def]
      have e1 : ¬192 + c.toNat / 64 < 128 := by omega
      have e2 : ¬192 + c.toNat / 64 < 192 := by omega
      have e3 : 192 + c.toNat / 64 < 224 := by omega
      have e4 : isCont (128 + c.toNat % 64) = true := by
        simp only [isCont, Bool.and_eq_true, decide_eq_true_eq]
        omega
      simp only [List.cons_append, List.nil_append, e1, e2, e3, e4, if_false,
        if_true, ite_false, ite_true, if_neg, if_pos]
      rw [show (192 + c.toNat / 64 - 192) * 64 + (128 + c.toNat % 64 - 128) =
        c.toNat from by omega]
      rw [if_pos (show 128 ≤ c.toNat from by omega)]
    · by_cases h3 : c.toNat < 65536
      · rw [show utf8Char c =
            [224 + c.toNat / 4096, 128 + c.toNat / 64 % 64, 128 + c.toNat % 64] from by
          simp [utf8Char, if_neg h1, if_neg h2, if_pos h3]]
        rw [utf8DecodeOne.eq_def]
        have e1 : ¬224 + c.toNat / 4096 < 128 := by omega
        have e2 : ¬224 + c.toNat / 4096 < 192 := by omega
        have e3 : ¬224 + c.toNat / 4096 < 224 := by omega
        have e4 : 224 + c.toNat / 4096 < 240 := by omega
        have e5 : isCont (128 + c.toNat / 64 % 64) = true := by
          simp only [isCont, Bool.and_eq_true, decide_eq_true_eq]
          omega
        have e6 : isCont (128 + c.toNat % 64) = true := by
          simp only [isCont, Bool.and_eq_true, decide_eq_true_eq]
          omega
        simp only [List.cons_append, List.nil_append, e1, e2, e3, e4, e5, e6,
          Bool.and_self, if_false, if_true, ite_false, ite_true, if_neg, if_pos]
        rw [show (224 + c.toNat / 4096 - 224) * 4096 +
          (128 + c.toNat / 64 % 64 - 128) * 64 + (128 + c.toNat % 64 - 128) =
          c.toNat from by omega]
        have hcond : (decide (2048 ≤ c.toNat) && isScalar c.toNat) = true := by
          simp only [isScalar, Bool.and_eq_true, Bool.or_eq_true, decide_eq_true_eq]
          omega
        rw [if_pos hcond]
      · rw [show utf8Char c =
            [240 + c.toNat / 262144, 128 + c.toNat / 4096 % 64,
             128 + c.toNat / 64 % 64, 128 + c.toNat % 64] from by
          simp [utf8Char, if_neg h1, if_neg h2, if_neg h3]]
        rw [utf8DecodeOne.eq_def]
        have e1 : ¬240 + c.toNat / 262144 < 128 := by omega
        have e2 : ¬240 + c.toNat / 262144 < 192 := by omega
        have e3 : ¬240 + c.toNat / 262144 < 224 := by omega
        have e4 : ¬240 + c.toNat / 262144 < 240 := by omega
        have e5 : 240 + c.toNat / 262144 < 248 := by omega
        have e6 : isCont (128 + c.toNat / 4096 % 64) = true := by
          simp only [isCont, Bool.and_eq_true, decide_eq_true_eq]
          omega
        have e7 : isCont (128 + c.toNat / 64 % 64) = true := by
          simp only [isCont, Bool.and_eq_true, decide_eq_true_eq]
          omega
        have e8 : isCont (128 + c.toNat % 64) = true := by
          simp only [isCont, Bool.and_eq_true, decide_eq_true_eq]
          omega
        simp only [List.cons_append, List.nil_append, e1, e2, e3, e4, e5, e6, e7,
          e8, Bool.and_self, if_false, if_true, ite_false, ite_true, if_neg, if_pos]
        rw [show (240 + c.toNat / 262144 - 240) * 262144 +
          (128 + c.toNat / 4096 % 64 - 128) * 4096 +
          (128 + c.toNat / 64 % 64 - 128) * 64 + (128 + c.toNat % 64 - 128) =
          c.toNat from by omega]
        have hcond : (decide (65536 ≤ c.toNat) && decide (c.toNat < 1114112)) = true := by
          simp only [Bool.and_eq_true, decide_eq_true_eq]
          omega
        rw [if_pos hcond]

theorem utf8Encode_length (cs : List Char) : cs.length ≤ (utf8Encode cs).length := by
  induction cs with
  | nil => simp [utf8Encode]
  | cons c t ih =>
    have h0 : utf8Char c ≠ [] := utf8Char_ne_nil c
    have h1 : 1 ≤ (utf8Char c).length := by
      cases h : utf8Char c with
      | nil => exact absurd h h0
      | cons b bt => simp
    simp only [utf8Encode, List.length_cons, List.length_append]
    omega

theorem utf8Encode_bytes (cs : List Char) : ∀ b ∈ utf8Encode cs, b < 256 := by
  induction cs with
  | nil => simp [utf8Encode]
  | cons c t ih =>
    intro b hb
    simp only [utf8Encode, List.mem_append] at hb
    rcases hb with hb | hb
    · exact utf8Char_bytes c b hb
    · exact ih b hb

theorem utf8DecodeAux_encode : ∀ (cs : List Char) (f : Nat), cs.length ≤ f →
    utf8DecodeAux f (utf8Encode cs) = some cs := by
  intro cs
  induction cs with
  | nil => intro f _; simp [utf8Encode, utf8DecodeAux]
  | cons c t ih =>
    intro f hf
    match f, hf with
    | g + 1, hf2 =>
      obtain ⟨b0, bt, hb⟩ : ∃ b0 bt, utf8Char c = b0 :: bt := by
        cases h : utf8Char c with
        | nil => exact absurd h (utf8Char_ne_nil c)
        | cons b0 bt => exact ⟨b0, bt, rfl⟩
      have hsplit : utf8Encode (c :: t) = b0 :: (bt ++ utf8Encode t) := by
        rw [utf8Encode, hb]
        rfl
      rw [hsplit, utf8DecodeAux]
      have hone : utf8DecodeOne (b0 :: (bt ++ utf8Encode t)) =
          some (c.toNat, utf8Encode t) := by
        rw [show b0 :: (bt ++ utf8Encode t) = utf8Char c ++ utf8Encode t from by
          rw [hb]; rfl]
        exact utf8DecodeOne_char c (utf8Encode t)
      simp [hone, ih g (by simpa using hf2), Char.ofNat_toNat]

theorem utf8Decode_encode (cs : List Char) :
    utf8Decode (utf8Encode cs) = some cs :=
  utf8DecodeAux_encode cs (utf8Encode cs).length (utf8Encode_length cs)

/-! ## Lemmas: base64 -/

theorem b64Val_b64Char : ∀ n, n < 64 → b64Val (b64Char n) = some n := by decide

theorem b64Char_ne_pad : ∀ n, n < 64 → b64Char n ≠ '=' := by decide

theorem b64Decode_encode : ∀ bs : List Nat, (∀ b ∈ bs, b < 256) →
    b64Decode (b64Encode bs) = some bs
  | [], _ => rfl
  | [a], h => by
    have ha : a < 256 := h a (by simp)
    have h1 : a / 4 < 64 := by omega
    have h2 : a % 4 * 16 < 64 := by omega
    rw [show b64Encode [a] = [b64Char (a / 4), b64Char (a % 4 * 16), '=', '='] from rfl,
      b64Decode.eq_def]
    simp only [b64Val_b64Char _ h1, b64Val_b64Char _ h2, List.isEmpty_nil]
    have h3 : a % 4 * 16 % 16 = 0 := by omega
    simp [h3]
    omega
  | [a, b], h => by
    have ha : a < 256 := h a (by simp)
    have hb : b < 256 := h b (by simp)
    have h1 : a / 4 < 64 := by omega
    have h2 : a % 4 * 16 + b / 16 < 64 := by omega
    have h3 : b % 16 * 4 < 64 := by omega
    rw [show b64Encode [a, b] =
        [b64Char (a / 4), b64Char (a % 4 * 16 + b / 16), b64Char (b % 16 * 4), '='] from rfl,
      b64Decode.eq_def]
    simp only [b64Val_b64Char _ h1, b64Val_b64Char _ h2, b64Val_b64Char _ h3,
      List.isEmpty_nil]
    have h4 : b64Char (b % 16 * 4) ≠ '=' := b64Char_ne_pad _ h3
    have h5 : b % 16 * 4 % 4 = 0 := by omega
    simp [h4, h5]
    constructor <;> omega
  | a :: b :: c :: rest, h => by
    have ha : a < 256 := h a (by simp)
    have hb : b < 256 := h b (by simp)
    have hc : c < 256 := h c (by simp)
    have h1 : a / 4 < 64 := by omega
    have h2 : a % 4 * 16 + b / 16 < 64 := by omega
    have h3 : b % 16 * 4 + c / 64 < 64 := by omega
    have h4 : c % 64 < 64 := by omega
    rw [show b64Encode (a :: b :: c :: rest) =
        b64Char (a / 4) :: b64Char (a % 4 * 16 + b / 16) ::
        b64Char (b % 16 * 4 + c / 64) :: b64Char (c % 64) :: b64Encode rest from rfl,
      b64Decode.eq_def]
    simp only [b64Val_b64Char _ h1, b64Val_b64Char _ h2, b64Val_b64Char _ h3,
      b64Val_b64Char _ h4]
    have h5 : b64Char (b % 16 * 4 + c / 64) ≠ '=' := b64Char_ne_pad _ h3
    have h6 : b64Char (c % 64) ≠ '=' := b64Char_ne_pad _ h4
    have h7 := b64Decode_encode rest (fun x hx => h x (by simp [hx]))
    have h8 : a / 4 * 4 + (a % 4 * 16 + b / 16) / 16 = a := by omega
    have h9 : (a % 4 * 16 + b / 16) % 16 * 16 + (b % 16 * 4 + c / 64) / 4 = b := by omega
    have h10 : (b % 16 * 4 + c / 64) % 4 * 64 + c % 64 = c := by omega
    simp [h5, h6, h7, h8, h9, h10]

/-! ## Lemmas: JSON text round-trip -/

theorem isDigitC_markers (c : Char) (h : isDigitC c = true) :
    c ≠ 'n' ∧ c ≠ 't' ∧ c ≠ 'f' ∧ c ≠ '"' ∧ c ≠ '[' ∧ c ≠ '{' ∧ c ≠ '-' ∧ c ≠ ']' := by
  refine ⟨?_, ?_, ?_, ?_, ?_, ?_, ?_, ?_⟩ <;> (rintro rfl; exact absurd h (by decide))

theorem natChars_head (n : Nat) :
    ∃ c t, natChars n = c :: t ∧ isDigitC c = true := by
  cases h : natChars n with
  | nil => exact absurd h (natChars_ne_nil n)
  | cons c t =>
    exact ⟨c, t, rfl, natChars_digits n c (h ▸ List.mem_cons_self c t)⟩

theorem dumpJson_ne_nil (j : Json) : dumpJson j ≠ [] := by
  cases j with
  | null => simp [dumpJson]
  | bool b => cases b <;> simp [dumpJson]
  | num i =>
    simp only [dumpJson, intChars]
    by_cases hi : i < 0
    · simp [hi]
    · simp [hi, natChars_ne_nil]
  | str s => simp [dumpJson, strChars]
  | arr es => simp [dumpJson]
  | obj fs => simp [dumpJson]

theorem dumpJson_head (j : Json) :
    ∃ c t, dumpJson j = c :: t ∧ c ≠ ']' := by
  cases j with
  | null => exact ⟨'n', _, rfl, by decide⟩
  | bool b => cases b with
    | true => exact ⟨'t', _, rfl, by decide⟩
    | false => exact ⟨'f', _, rfl, by decide⟩
  | num i =>
    by_cases hi : i < 0
    · exact ⟨'-', natChars i.natAbs, by simp [dumpJson, intChars, hi], by decide⟩
    · obtain ⟨c, t, hct, hc⟩ := natChars_head i.natAbs
      exact ⟨c, t, by simp [dumpJson, intChars, hi, hct], (isDigitC_markers c hc).2.2.2.2.2.2.2⟩
  | str s => exact ⟨'"', escapeList s.data ++ ['"'], by simp [dumpJson, strChars], by decide⟩
  | arr es => exact ⟨'[', _, rfl, by decide⟩
  | obj fs => exact ⟨'{', _, rfl, by decide⟩

theorem dumpItems_single (e : Json) : dumpItems [e] = dumpJson e := rfl

theorem dumpItems_cons2 (e e2 : Json) (es : List Json) :
    dumpItems (e :: e2 :: es) = dumpJson e ++ ',' :: dumpItems (e2 :: es) := rfl

theorem dumpEntries_single (k : String) (v : Json) :
    dumpEntries [(k, v)] = strChars k ++ ':' :: dumpJson v := rfl

theorem dumpEntries_cons2 (k : String) (v : Json) (kv2 : String × Json)
    (fs : List (String × Json)) :
    dumpEntries ((k, v) :: kv2 :: fs) =
      strChars k ++ ':' :: dumpJson v ++ ',' :: dumpEntries (kv2 :: fs) := rfl

theorem dumpItems_head (e : Json) (es : List Json) :
    ∃ c t, dumpItems (e :: es) = c :: t ∧ c ≠ ']' := by
  obtain ⟨c, t, hct, hc⟩ := dumpJson_head e
  cases es with
  | nil => exact ⟨c, t, by rw [dumpItems_single, hct], hc⟩
  | cons e2 es' =>
    exact ⟨c, t ++ ',' :: dumpItems (e2 :: es'), by rw [dumpItems_cons2, hct]; simp, hc⟩

theorem parseJ_num (i : Int) (g : Nat) (rest : List Char)
    (hrest : digitBoundary rest = true) :
    parseJ (g + 1) (intChars i ++ rest) = some (.num i, rest) := by
  by_cases hi : i < 0
  · rw [show intChars i ++ rest = '-' :: (natChars i.natAbs ++ rest) from by
      simp [intChars, hi]]
    simp only [parseJ]
    simp only [parseDigits_natChars i.natAbs rest hrest]
    have hcast : -((i.natAbs : Nat) : Int) = i := by omega
    simpa using hcast
  · obtain ⟨c, t, hct, hc⟩ := natChars_head i.natAbs
    obtain ⟨m1, m2, m3, m4, m5, m6, m7, _⟩ := isDigitC_markers c hc
    rw [show intChars i ++ rest = c :: (t ++ rest) from by
      simp [intChars, hi, hct]]
    simp only [parseJ]
    have hback : c :: (t ++ rest) = natChars i.natAbs ++ rest := by
      rw [hct]; simp
    simp only [m1, m2, m3, m4, m5, m6, m7, hc, if_false, if_true, ite_false,
      ite_true, if_neg, if_pos]
    rw [hback]
    rw [parseDigits_natChars i.natAbs rest hrest]
    have hcast : ((i.natAbs : Nat) : Int) = i := by omega
    simpa using hcast

theorem parseJ_str (s : String) (g : Nat) (rest : List Char) :
    parseJ (g + 1) (strChars s ++ rest) = some (.str s, rest) := by
  rw [show strChars s ++ rest = '"' :: (escapeList s.data ++ '"' :: rest) from by
    simp [strChars]]
  simp only [parseJ]
  simp [parseStrBody_escapeList s.data rest]

theorem parseJ_openBracket (g : Nat) (cs : List Char) (c0 : Char) (t0 : List Char)
    (hcs : cs = c0 :: t0) (h : c0 ≠ ']') :
    parseJ (g + 1) ('[' :: cs) =
      (match parseItems g cs with
       | some (es, r1) => some (.arr es, r1)
       | none => none) := by
  subst hcs
  simp only [parseJ]
  simp [h]

theorem parseJ_openBrace (g : Nat) (cs : List Char) (t0 : List Char)
    (hcs : cs = '"' :: t0) :
    parseJ (g + 1) ('{' :: cs) =
      (match parseEntries g cs with
       | some (fs, r1) => some (.obj fs, r1)
       | none => none) := by
  subst hcs
  simp only [parseJ]
  simp

mutual
theorem rt_json : ∀ (j : Json) (f : Nat) (rest : List Char),
    (dumpJson j).length < f → digitBoundary rest = true →
    parseJ f (dumpJson j ++ rest) = some (j, rest)
  | .null, f, rest, hf, _ => by
    match f, hf with
    | g + 1, _ =>
      rw [show dumpJson .null ++ rest = 'n' :: 'u' :: 'l' :: 'l' :: rest from rfl]
      simp only [parseJ]
      simp
  | .bool true, f, rest, hf, _ => by
    match f, hf with
    | g + 1, _ =>
      rw [show dumpJson (.bool true) ++ rest = 't' :: 'r' :: 'u' :: 'e' :: rest from rfl]
      simp only [parseJ]
      simp
  | .bool false, f, rest, hf, _ => by
    match f, hf with
    | g + 1, _ =>
      rw [show dumpJson (.bool false) ++ rest =
        'f' :: 'a' :: 'l' :: 's' :: 'e' :: rest from rfl]
      simp only [parseJ]
      simp
  | .num i, f, rest, hf, hrest => by
    match f, hf with
    | g + 1, _ => exact parseJ_num i g rest hrest
  | .str s, f, rest, hf, _ => by
    match f, hf with
    | g + 1, _ => exact parseJ_str s g rest
  | .arr [], f, rest, hf, _ => by
    match f, hf with
    | g + 1, _ =>
      rw [show dumpJson (.arr []) ++ rest = '[' :: ']' :: rest from rfl]
      simp only [parseJ]
      simp
  | .arr (e :: es), f, rest, hf, _ => by
    match f, hf with
    | g + 1, hf =>
      obtain ⟨c0, t0, hct, hc0⟩ := dumpItems_head e es
      rw [show dumpJson (.arr (e :: es)) ++ rest =
        '[' :: (dumpItems (e :: es) ++ ']' :: rest) from by
        show '[' :: (dumpItems (e :: es) ++ [']']) ++ rest = _
        simp]
      rw [parseJ_openBracket g _ c0 (t0 ++ ']' :: rest) (by rw [hct]; simp) hc0]
      have hlen : (dumpItems (e :: es)).length + 1 < g := by
        have : (dumpJson (.arr (e :: es))).length =
            (dumpItems (e :: es)).length + 2 := by
          show ('[' :: (dumpItems (e :: es) ++ [']'])).length = _
          simp
        omega
      rw [rt_items (e :: es) g rest (by simp) hlen]
  | .obj [], f, rest, hf, _ => by
    match f, hf with
    | g + 1, _ =>
      rw [show dumpJson (.obj []) ++ rest = '{' :: '}' :: rest from rfl]
      simp only [parseJ]
      simp
  | .obj ((k, v) :: fs), f, rest, hf, _ => by
    match f, hf with
    | g + 1, hf =>
      have hhead : ∃ t, dumpEntries ((k, v) :: fs) = '"' :: t := by
        cases fs with
        | nil => exact ⟨escapeList k.data ++ '"' :: ':' :: dumpJson v, by
            rw [dumpEntries_single]; simp [strChars]⟩
        | cons kv2 fs' => exact ⟨escapeList k.data ++ '"' :: ':' :: dumpJson v ++
            ',' :: dumpEntries (kv2 :: fs'), by
            rw [dumpEntries_cons2]; simp [strChars]⟩
      obtain ⟨t0, ht0⟩ := hhead
      rw [show dumpJson (.obj ((k, v) :: fs)) ++ rest =
        '{' :: (dumpEntries ((k, v) :: fs) ++ '}' :: rest) from by
        show '{' :: (dumpEntries ((k, v) :: fs) ++ ['}']) ++ rest = _
        simp]
      rw [parseJ_openBrace g _ (t0 ++ '}' :: rest) (by rw [ht0]; simp)]
      have hlen : (dumpEntries ((k, v) :: fs)).length + 1 < g := by
        have : (dumpJson (.obj ((k, v) :: fs))).length =
            (dumpEntries ((k, v) :: fs)).length + 2 := by
          show ('{' :: (dumpEntries ((k, v) :: fs) ++ ['}'])).length = _
          simp
        omega
      rw [rt_entries ((k, v) :: fs) g rest (by simp) hlen]
theorem rt_items : ∀ (es : List Json) (f : Nat) (rest : List Char), es ≠ [] →
    (dumpItems es).length + 1 < f →
    parseItems f (dumpItems es ++ ']' :: rest) = some (es, rest)
  | [], _, _, h, _ => absurd rfl h
  | [e], f, rest, _, hf => by
    match f, hf with
    | g + 1, hf =>
      rw [show dumpItems [e] ++ ']' :: rest = dumpJson e ++ ']' :: rest from by
        rw [dumpItems_single]]
      simp only [parseItems]
      have hb : (dumpJson e).length < g := by
        have he : (dumpItems [e]).length = (dumpJson e).length := by
          rw [dumpItems_single]
        omega
      rw [rt_json e g (']' :: rest) hb (by rfl)]
      simp
  | e :: e2 :: es, f, rest, _, hf => by
    match f, hf with
    | g + 1, hf =>
      rw [show dumpItems (e :: e2 :: es) ++ ']' :: rest =
        dumpJson e ++ ',' :: (dumpItems (e2 :: es) ++ ']' :: rest) from by
        rw [dumpItems_cons2]; simp]
      simp only [parseItems]
      have h1 : 0 < (dumpJson e).length :=
        List.length_pos.mpr (dumpJson_ne_nil e)
      have hlen0 : (dumpItems (e :: e2 :: es)).length =
          (dumpJson e).length + 1 + (dumpItems (e2 :: es)).length := by
        rw [dumpItems_cons2]; simp
        omega
      rw [rt_json e g (',' :: (dumpItems (e2 :: es) ++ ']' :: rest))
        (by omega) (by rfl)]
      simp only [rt_items (e2 :: es) g rest (by simp) (by omega)]
      simp
theorem rt_entries : ∀ (fs : List (String × Json)) (f : Nat) (rest : List Char),
    fs ≠ [] → (dumpEntries fs).length + 1 < f →
    parseEntries f (dumpEntries fs ++ '}' :: rest) = some (fs, rest)
  | [], _, _, h, _ => absurd rfl h
  | [(k, v)], f, rest, _, hf => by
    match f, hf with
    | g + 1, hf =>
      rw [show dumpEntries [(k, v)] ++ '}' :: rest =
        '"' :: (escapeList k.data ++ '"' :: (':' :: (dumpJson v ++ '}' :: rest))) from by
        rw [dumpEntries_single]; simp [strChars]]
      simp only [parseEntries]
      have hb : (dumpJson v).length < g := by
        have he : (dumpEntries [(k, v)]).length =
            (escapeList k.data).length + 2 + 1 + (dumpJson v).length := by
          rw [dumpEntries_single]; simp [strChars]
          omega
        omega
      rw [show escapeList k.data ++ '"' :: (':' :: (dumpJson v ++ '}' :: rest)) =
        escapeList k.data ++ '"' :: (':' :: (dumpJson v ++ '}' :: rest)) from rfl]
      simp only [parseStrBody_escapeList k.data (':' :: (dumpJson v ++ '}' :: rest))]
      rw [rt_json v g ('}' :: rest) hb (by rfl)]
      simp
  | (k, v) :: kv2 :: fs, f, rest, _, hf => by
    match f, hf with
    | g + 1, hf =>
      rw [show dumpEntries ((k, v) :: kv2 :: fs) ++ '}' :: rest =
        '"' :: (escapeList k.data ++ '"' ::
          (':' :: (dumpJson v ++ ',' :: (dumpEntries (kv2 :: fs) ++ '}' :: rest)))) from by
        rw [dumpEntries_cons2]; simp [strChars]]
      simp only [parseEntries]
      have h1 : 0 < (dumpJson v).length :=
        List.length_pos.mpr (dumpJson_ne_nil v)
      have hlen0 : (dumpEntries ((k, v) :: kv2 :: fs)).length =
          (escapeList k.data).length + 2 + 1 + (dumpJson v).length + 1 +
            (dumpEntries (kv2 :: fs)).length := by
        rw [dumpEntries_cons2]; simp [strChars]
        omega
      simp only [parseStrBody_escapeList k.data
        (':' :: (dumpJson v ++ ',' :: (dumpEntries (kv2 :: fs) ++ '}' :: rest)))]
      rw [rt_json v g (',' :: (dumpEntries (kv2 :: fs) ++ '}' :: rest))
        (by omega) (by rfl)]
      simp only [rt_entries (kv2 :: fs) g rest (by simp) (by omega)]
      simp
end

theorem parseJson_dump (j : Json) : parseJson (dumpJson j) = some j := by
  rw [parseJson]
  have h : parseJ ((dumpJson j).length + 1) (dumpJson j ++ []) = some (j, []) :=
    rt_json j ((dumpJson j).length + 1) [] (by omega) rfl
  rw [List.append_nil] at h
  rw [h]

/-! ## Lemmas: the wire codec -/

theorem jsonToBytes_lt (j : Json) : ∀ b ∈ jsonToBytes j, b < 256 :=
  utf8Encode_bytes (dumpJson j)

theorem bytesToJson_encode (j : Json) : bytesToJson (jsonToBytes j) = some j := by
  simp only [bytesToJson, jsonToBytes, utf8Decode_encode, parseJson_dump]

theorem encode_payload_none (p : Json) :
    encode_payload p none = String.mk ('1' :: '-' :: b64Encode (jsonToBytes p)) := rfl

theorem encode_payload_some (p : Json) (g : EncryptionProvider) :
    encode_payload p (some g) =
      String.mk ('2' :: '-' :: b64Encode (g.encrypt (jsonToBytes p))) := rfl

theorem decode_v1_noProvider (body : List Char) :
    decode_payload (String.mk ('1' :: '-' :: body)) none =
      (match b64Decode body with
       | none => Except.error PayloadError.invalidPayload
       | some bytes =>
         match bytesToJson bytes with
         | some j => Except.ok j
         | none => Except.error PayloadError.invalidPayload) := rfl

theorem decode_v1_provider (body : List Char) (g : EncryptionProvider) :
    decode_payload (String.mk ('1' :: '-' :: body)) (some g) =
      Except.error PayloadError.encryptionRequired := rfl

theorem decode_v2_noProvider (body : List Char) :
    decode_payload (String.mk ('2' :: '-' :: body)) none =
      Except.error PayloadError.decryptionUnsupported := rfl

theorem decode_v2_provider (body : List Char) (g : EncryptionProvider) :
    decode_payload (String.mk ('2' :: '-' :: body)) (some g) =
      (match b64Decode body with
       | none => Except.error PayloadError.invalidPayload
       | some blob =>
         match g.decrypt blob with
         | none => Except.error PayloadError.encryptionError
         | some bytes =>
           match bytesToJson bytes with
           | some j => Except.ok j
           | none => Except.error PayloadError.invalidPayload) := rfl

theorem decode_encode_plain (p : Json) :
    decode_payload (encode_payload p none) none = .ok p := by
  rw [encode_payload_none, decode_v1_noProvider,
    b64Decode_encode (jsonToBytes p) (jsonToBytes_lt p)]
  simp [bytesToJson_encode]

theorem decode_encode_provider (p : Json) (g : EncryptionProvider)
    (hg : GoodProvider g) :
    decode_payload (encode_payload p (some g)) (some g) = .ok p := by
  rw [encode_payload_some, decode_v2_provider,
    b64Decode_encode (g.encrypt (jsonToBytes p)) (hg.2 _ (jsonToBytes_lt p))]
  simp [hg.1, bytesToJson_encode]

/-! ## Lemmas: validator characterizations -/

theorem validate_success_reduce (d : List (String × Json)) :
    validate_payload_schema (successPayload d) =
      (if (match lookupField d "output" with
           | some (.obj _) => true
           | _ => false) = true
       then Except.ok () else Except.error PayloadError.invalidPayload) := rfl

theorem actionNameOk_iff (s : String) :
    actionNameOk s = true ↔ s ≠ "" ∧ s.data.head? ≠ some '$' := by
  obtain ⟨data⟩ := s
  cases data with
  | nil => simp [actionNameOk, String.ext_iff]
  | cons c t => simp [actionNameOk, String.ext_iff]

theorem nonEmptyStrField_iff (fields : List (String × Json)) (k : String) :
    nonEmptyStrField fields k = true ↔
      ∃ t, lookupField fields k = some (.str t) ∧ t ≠ "" := by
  rcases h : lookupField fields k with _ | v
  · simp [nonEmptyStrField, h]
  · rcases v with _ | b | n | t | es | fs2 <;> simp [nonEmptyStrField, h]

theorem actionsField_iff (fields : List (String × Json)) :
    actionsField fields = true ↔
      ∃ acts, lookupField fields "actions" = some (.obj acts) ∧ acts ≠ [] ∧
        ∀ kv ∈ acts, (kv.1 ≠ "" ∧ kv.1.data.head? ≠ some '$') ∧
          action_schema kv.2 = true := by
  rcases h : lookupField fields "actions" with _ | v
  · simp [actionsField, h]
  · rcases v with _ | b | n | t | es | acts <;>
      simp [actionsField, h, List.all_eq_true, actionNameOk_iff]

theorem optNumField_iff (fields : List (String × Json)) (k : String) :
    optNumField fields k = true ↔
      lookupField fields k = none ∨
        ∃ n, lookupField fields k = some (.num n) := by
  rcases h : lookupField fields k with _ | v
  · simp [optNumField, h]
  · rcases v with _ | b | n | t | es | fs2 <;> simp [optNumField, h]

theorem optBoolField_iff (fields : List (String × Json)) (k : String) :
    optBoolField fields k = true ↔
      lookupField fields k = none ∨
        ∃ b, lookupField fields k = some (.bool b) := by
  rcases h : lookupField fields k with _ | v
  · simp [optBoolField, h]
  · rcases v with _ | b | n | t | es | fs2 <;> simp [optBoolField, h]

theorem optApiField_iff (fields : List (String × Json)) (k : String) :
    optApiField fields k = true ↔
      lookupField fields k = none ∨
        (∃ t, lookupField fields k = some (.str t)) ∨
        ∃ o, lookupField fields k = some (.obj o) := by
  rcases h : lookupField fields k with _ | v
  · simp [optApiField, h]
  · rcases v with _ | b | n | t | es | fs2 <;> simp [optApiField, h]

/-! ## Claims -/

/-- C1: for every valid payload and every non-null encryption provider,
decoding a wire string that was encoded without a provider (version `"1"`)
while supplying a provider at decode time fails with
`EncryptionRequiredError`; the plaintext token is never accepted when a
provider is configured. -/
theorem claim_C1_downgrade_rejected (p : Json) (g : EncryptionProvider)
    (hp : validate_payload_schema p = .ok ()) :
    decode_payload (encode_payload p none) (some g) =
      .error .encryptionRequired := by
  rw [encode_payload_none, decode_v1_provider]

theorem claim_C1_witness :
    validate_payload_schema testPayload = .ok () ∧
    decode_payload (encode_payload testPayload none) (some idProvider) =
      .error .encryptionRequired :=
  ⟨rfl, claim_C1_downgrade_rejected testPayload idProvider rfl⟩

/-- C2: for every payload that passes `validate_payload_schema`, decoding
the encoding round-trips to the identical payload, both in the no-provider
configuration and with any correctly-inverting encryption provider. -/
theorem claim_C2_roundtrip (p : Json)
    (hp : validate_payload_schema p = .ok ()) :
    decode_payload (encode_payload p none) none = .ok p ∧
    ∀ g : EncryptionProvider, GoodProvider g →
      decode_payload (encode_payload p (some g)) (some g) = .ok p :=
  ⟨decode_encode_plain p, fun g hg => decode_encode_provider p g hg⟩

theorem claim_C2_witness :
    decode_payload (encode_payload testPayload none) none = .ok testPayload ∧
    decode_payload (encode_payload testPayload (some idProvider))
      (some idProvider) = .ok testPayload := by
  have hg : GoodProvider idProvider := ⟨fun bs => rfl, fun bs h => h⟩
  have h := claim_C2_roundtrip testPayload rfl
  exact ⟨h.1, h.2 idProvider hg⟩

/-- C3: for every valid payload and every non-null encryption provider,
decoding a wire string that was encoded with the provider (version `"2"`)
while supplying no provider at decode time fails with
`DecryptionUnsupportedError`. -/
theorem claim_C3_upgrade_rejected (p : Json) (g : EncryptionProvider)
    (hp : validate_payload_schema p = .ok ()) :
    decode_payload (encode_payload p (some g)) none =
      .error .decryptionUnsupported := by
  rw [encode_payload_some, decode_v2_noProvider]

theorem claim_C3_witness :
    validate_payload_schema testPayload = .ok () ∧
    decode_payload (encode_payload testPayload (some idProvider)) none =
      .error .decryptionUnsupported :=
  ⟨rfl, claim_C3_upgrade_rejected testPayload idProvider rfl⟩

/-- C4: for every payload whose `exp` claim is the integer `e` and every
time `now`, `validate_payload_expiration` fails with `ExpiredPayloadError`
exactly when `⌊now⌋ ≥ e`; in particular it fails when `now` equals the
expiry instant itself and succeeds one second before it. -/
theorem claim_C4_expiration_boundary (fields : List (String × Json))
    (e : Int) (now : ℚ)
    (hexp : lookupField fields "exp" = some (.num e)) :
    (validate_payload_expiration (.obj fields) now =
        .error .expiredPayload ↔ e ≤ ⌊now⌋) ∧
    validate_payload_expiration (.obj fields) (e : ℚ) =
      .error .expiredPayload ∧
    validate_payload_expiration (.obj fields) ((e : ℚ) - 1) = .ok () := by
  have hred : ∀ q : ℚ, validate_payload_expiration (.obj fields) q =
      if e ≤ ⌊q⌋ then .error .expiredPayload else .ok () := by
    intro q
    simp [validate_payload_expiration, hexp]
  refine ⟨?_, ?_, ?_⟩
  · rw [hred]
    by_cases h : e ≤ ⌊now⌋ <;> simp [h]
  · rw [hred, if_pos (by simp [Int.floor_intCast])]
  · rw [hred]
    have h1 : (⌊(e : ℚ) - 1⌋ : Int) = e - 1 := by
      rw [show ((e : ℚ) - 1) = (((e - 1 : Int) : ℚ)) from by push_cast; ring,
        Int.floor_intCast]
    rw [if_neg (by omega)]

theorem claim_C4_witness :
    (validate_payload_expiration (.obj testPayloadFields) (1 / 2) =
        .error .expiredPayload ↔ (0 : Int) ≤ ⌊(1 / 2 : ℚ)⌋) ∧
    validate_payload_expiration (.obj testPayloadFields) ((0 : Int) : ℚ) =
      .error .expiredPayload ∧
    validate_payload_expiration (.obj testPayloadFields)
      (((0 : Int) : ℚ) - 1) = .ok () :=
  claim_C4_expiration_boundary testPayloadFields 0 (1 / 2) rfl

/-- C5 (amended): the decoded-payload schema is closed over its declared
key set — the §3 field set plus the optional `url` — and any payload
carrying a top-level field outside that set fails with
`InvalidPayloadError`. (The original claim, that any field outside the §3
set alone is rejected, is refuted by the accepted `url` field.) -/
theorem claim_C5_closed_schema (fields : List (String × Json)) (k : String)
    (v : Json) (hmem : (k, v) ∈ fields) (hk : k ∉ payloadKeys) :
    validate_payload_schema (.obj fields) = .error .invalidPayload := by
  have hall : fields.all (fun kv => payloadKeys.contains kv.1) = false := by
    rw [List.all_eq_false]
    exact ⟨(k, v), hmem, by simpa using hk⟩
  simp only [validate_payload_schema]
  rw [hall]
  simp

theorem claim_C5_counterexample :
    lookupField urlPayloadFields "url" = some (.str "https://example.com") ∧
    "url" ∉ ["iss", "iat", "tid", "exp", "token", "name", "act", "data", "par"] ∧
    validate_payload_schema urlPayload = .ok () :=
  ⟨rfl, by decide, rfl⟩

theorem claim_C5_witness :
    (("foo", Json.str "bar") ∈ testPayloadFields ++ [("foo", Json.str "bar")]) ∧
    "foo" ∉ payloadKeys ∧
    validate_payload_schema (.obj (testPayloadFields ++ [("foo", Json.str "bar")])) =
      .error .invalidPayload :=
  ⟨by simp, by decide,
    claim_C5_closed_schema _ "foo" (.str "bar") (by simp) (by decide)⟩

/-- C6: a builder constructed with `enable_output_parameters = true` reads
the environment toggle fresh at each `build` call: the same builder
instance fails with `ParametersDisabledError` under an environment whose
toggle is set and succeeds — with `par = true` in the payload — under one
whose toggle is unset. -/
theorem claim_C6_parameters_policy (pb : PayloadBuilder)
    (envOn envOff : BuildEnv) (an at_ : String) (ad : Json)
    (hreq : pb.enable_output_parameters = true)
    (hOn : envOn.disableParameters = true)
    (hOff : envOff.disableParameters = false)
    (hvalid : validate_payload_schema (pb.payloadFor envOff an at_ ad) = .ok ()) :
    pb.build envOn an at_ ad = .error .parametersDisabled ∧
    pb.build envOff an at_ ad = .ok (pb.payloadFor envOff an at_ ad) ∧
    ∀ fs, pb.payloadFor envOff an at_ ad = .obj fs →
      lookupField fs "par" = some (.bool true) := by
  refine ⟨?_, ?_, ?_⟩
  · simp [PayloadBuilder.build, hreq, hOn]
  · simp [PayloadBuilder.build, hreq, hOff, hvalid]
  · intro fs hfs
    simp only [PayloadBuilder.payloadFor, Json.obj.injEq] at hfs
    subst hfs
    rw [hreq]
    rfl

theorem claim_C6_witness :
    cBuilder.build cEnvOn "foo" "success" cActionData =
      .error .parametersDisabled ∧
    cBuilder.build cEnvOff "foo" "success" cActionData =
      .ok (cBuilder.payloadFor cEnvOff "foo" "success" cActionData) ∧
    ∀ fs, cBuilder.payloadFor cEnvOff "foo" "success" cActionData = .obj fs →
      lookupField fs "par" = some (.bool true) :=
  claim_C6_parameters_policy cBuilder cEnvOn cEnvOff "foo" "success"
    cActionData rfl rfl rfl rfl

/-- C7 (amended): for a success payload, `validate_payload_schema` accepts
exactly when `data.output` is present and is a JSON object (the empty
object included); a missing or non-object `output` fails with
`InvalidPayloadError`. (The original claim, that any JSON value — object
or primitive — is accepted for `output`, is refuted by the rejection of a
string `output`, which the repository's own test also pins down.) -/
theorem claim_C7_success_output (d : List (String × Json)) :
    (validate_payload_schema (successPayload d) = .ok () ↔
      ∃ fs, lookupField d "output" = some (.obj fs)) ∧
    (validate_payload_schema (successPayload d) = .ok () ∨
      validate_payload_schema (successPayload d) = .error .invalidPayload) := by
  rw [validate_success_reduce d]
  rcases h : lookupField d "output" with _ | v
  · simp [h]
  · rcases v with _ | b | n | t | es | fs2 <;> simp [h]

theorem claim_C7_counterexample :
    lookupField [("output", Json.str "foo")] "output" = some (.str "foo") ∧
    validate_payload_schema (successPayload [("output", .str "foo")]) =
      .error .invalidPayload :=
  ⟨rfl, rfl⟩

/-- C8 (amended): in the action-descriptor schema, `error` and `cause`
are constrained only when `type == failure`: a failure descriptor
carrying either of them with a non-string value is rejected, while under
`type == heartbeat` acceptance is exactly the `response` rule and under
`type == success` exactly the `response` rule plus the presence of
`output` — characterizations in which `error` and `cause` do not occur,
so their presence with any value is never rejected there (the schema's
`allOf` conditionals have no else branches and `additionalProperties` is
not restricted). (The original claim, that their mere presence under
`success` or `heartbeat` is rejected, is refuted by the accepted
heartbeat descriptor carrying an `error`.) -/
theorem claim_C8_failure_strings (fields : List (String × Json)) (v : Json) :
    (lookupField fields "type" = some (.str "failure") →
      (lookupField fields "error" = some v ∨
        lookupField fields "cause" = some v) →
      (∀ s, v ≠ .str s) →
      action_schema (.obj fields) = false) ∧
    (lookupField fields "type" = some (.str "heartbeat") →
      (action_schema (.obj fields) = true ↔ responseOk fields = true)) ∧
    (lookupField fields "type" = some (.str "success") →
      (action_schema (.obj fields) = true ↔
        responseOk fields = true ∧
          (lookupField fields "output").isSome = true)) ∧
    action_schema (.obj [("type", .str "heartbeat"), ("error", .num 1)]) = true ∧
    action_schema (.obj [("type", .str "failure"),
      ("error", .str "foo"), ("cause", .str "bar")]) = true := by
  refine ⟨?_, ?_, ?_, rfl, rfl⟩
  case refine_2 =>
    intro htype
    simp [action_schema, htype]
  case refine_3 =>
    intro htype
    simp [action_schema, htype, Bool.and_eq_true]
  intro htype hlook hnostr
  have herr : (strIfPresent fields "error" && strIfPresent fields "cause") = false := by
    rcases hlook with h | h
    · have hx : strIfPresent fields "error" = false := by
        rcases v with _ | b | n | t | es | fs2
        · simp [strIfPresent, h]
        · simp [strIfPresent, h]
        · simp [strIfPresent, h]
        · exact absurd rfl (hnostr t)
        · simp [strIfPresent, h]
        · simp [strIfPresent, h]
      simp [hx]
    · have hx : strIfPresent fields "cause" = false := by
        rcases v with _ | b | n | t | es | fs2
        · simp [strIfPresent, h]
        · simp [strIfPresent, h]
        · simp [strIfPresent, h]
        · exact absurd rfl (hnostr t)
        · simp [strIfPresent, h]
        · simp [strIfPresent, h]
      simp [hx]
  simp [action_schema, htype, herr]

theorem claim_C8_counterexample :
    lookupField [("type", Json.str "heartbeat"), ("error", Json.num 1)]
      "error" = some (.num 1) ∧
    action_schema (.obj [("type", .str "heartbeat"), ("error", .num 1)]) = true :=
  ⟨rfl, rfl⟩

theorem claim_C8_witness :
    action_schema (.obj [("type", .str "failure"), ("error", .obj [])]) = false ∧
    action_schema (.obj [("type", .str "heartbeat"), ("error", .num 1),
      ("cause", .arr [])]) = true ∧
    action_schema (.obj [("type", .str "success"), ("output", .num 2),
      ("error", .bool true), ("cause", .obj [])]) = true := by
  refine ⟨?_, ?_, ?_⟩
  · exact (claim_C8_failure_strings [("type", .str "failure"), ("error", .obj [])]
      (.obj [])).1 rfl (Or.inl rfl) (fun s h => Json.noConfusion h)
  · exact ((claim_C8_failure_strings [("type", .str "heartbeat"), ("error", .num 1),
      ("cause", .arr [])] .null).2.1 rfl).mpr rfl
  · exact ((claim_C8_failure_strings [("type", .str "success"), ("output", .num 2),
      ("error", .bool true), ("cause", .obj [])] .null).2.2.1 rfl).mpr ⟨rfl, rfl⟩

/-- C9: the batch-request schema accepts exactly the objects with a
required non-empty string `token` and a required non-empty `actions`
mapping whose keys are non-empty names not starting with the reserved `$`
sentinel and whose values are valid action descriptors, with optional
numeric `expiration`, boolean `enable_output_parameters` and
string-or-object `api`; in particular the empty object, a missing
`actions`, an empty `actions` mapping, a non-string `token`, an
empty-string action name and a `$`-prefixed action name are all
rejected. -/
theorem claim_C9_event_schema (j : Json) :
    create_url_event_schema j = true ↔
      ∃ fields, j = .obj fields ∧
        (∃ t, lookupField fields "token" = some (.str t) ∧ t ≠ "") ∧
        (∃ acts, lookupField fields "actions" = some (.obj acts) ∧ acts ≠ [] ∧
          ∀ kv ∈ acts, (kv.1 ≠ "" ∧ kv.1.data.head? ≠ some '$') ∧
            action_schema kv.2 = true) ∧
        (lookupField fields "expiration" = none ∨
          ∃ n, lookupField fields "expiration" = some (.num n)) ∧
        (lookupField fields "enable_output_parameters" = none ∨
          ∃ b, lookupField fields "enable_output_parameters" = some (.bool b)) ∧
        (lookupField fields "api" = none ∨
          (∃ t, lookupField fields "api" = some (.str t)) ∨
          ∃ o, lookupField fields "api" = some (.obj o)) := by
  cases j with
  | obj fields =>
    simp only [create_url_event_schema, Bool.and_eq_true, nonEmptyStrField_iff,
      actionsField_iff, optNumField_iff, optBoolField_iff, optApiField_iff,
      Json.obj.injEq]
    constructor
    · rintro ⟨⟨⟨⟨htok, hact⟩, hexp⟩, hen⟩, hapi⟩
      exact ⟨fields, rfl, htok, hact, hexp, hen, hapi⟩
    · rintro ⟨fields2, hfe, htok, hact, hexp, hen, hapi⟩
      subst hfe
      exact ⟨⟨⟨⟨htok, hact⟩, hexp⟩, hen⟩, hapi⟩
  | null => simp [create_url_event_schema]
  | bool b => simp [create_url_event_schema]
  | num n => simp [create_url_event_schema]
  | str s => simp [create_url_event_schema]
  | arr es => simp [create_url_event_schema]

/-- C10: `validate_payload_schema` accepts the payload carrying an
additional top-level `url` string field beyond the §3 field set, and that
payload round-trips unchanged through `encode_payload` and
`decode_payload`. -/
theorem claim_C10_url_roundtrip :
    validate_payload_schema urlPayload = .ok () ∧
    decode_payload (encode_payload urlPayload none) none = .ok urlPayload :=
  ⟨rfl, decode_encode_plain urlPayload⟩

end SfnCallbackUrls
